import Mathlib

/-!
Shallow embedding of the query and pattern-detection engine of the
china_stock_market_research repository (`data_utils.py` and `app.py`),
together with proofs of the specified properties.

Conventions of the embedding:
* dates are modelled as `Int` (a day number); `date BETWEEN a AND b` is
  `a ≤ d ∧ d ≤ b`, and "the previous calendar day" is `d - 1`;
* monetary and percentage columns (`open`, `close`, `amount`,
  `change_rate`) are modelled as `Rat`, since the engine applies no
  floating-point tolerance: comparisons are exact on the stored values;
* a SQL result set / pandas DataFrame is a list of rows together with its
  column list (`DF`); `ORDER BY` and `sort_values` are modelled by
  `List.insertionSort`, a stable sort producing a sorted permutation;
* the Python convention `None` = "no symbol filter" is modelled by
  `Option (Finset String)`, with `none` the unrestricted sentinel.
-/

/-- A row of the `transactions` table restricted to the columns the engine
reads (`symbol`, `date`, `open`, `close`, `amount`, `change_rate`); the
remaining columns of the table are never inspected by any of the queries
under study and are inert for every claim. -/
structure Txn where
  symbol : String
  date : Int
  «open» : Rat
  close : Rat
  amount : Rat
  change_rate : Rat
deriving DecidableEq, Repr, Inhabited

/-- A data frame: a column list plus a list of rows. -/
structure DF (α : Type) where
  columns : List String
  rows : List α
deriving DecidableEq, Repr

/-- Modelled from the spec: the column schema of the `transactions` table
(the table itself lives in the external SQLite store, not in the
repository; §3 of the spec lists its columns). `SELECT *` results carry
this schema even when no row matches. -/
def transactionsColumns : List String :=
  ["date", "symbol", "open", "close", "high", "low", "volume", "amount",
   "amplitude", "change_rate", "change", "turnover_rate"]

/-- Column schema of the summary result of `query_five_day_yang`. -/
def summaryColumns : List String :=
  ["date_start", "date_end", "symbol", "day 5 close", "day 5 open",
   "day 4 close", "day 3 close", "day 2 close", "day 1 close", "day 0 close"]

/-- Ordering `ORDER BY date, symbol` on transaction rows. -/
def dateSymLe (a b : Txn) : Prop :=
  a.date < b.date ∨ (a.date = b.date ∧ a.symbol ≤ b.symbol)

/-- Ordering `ORDER BY date` (ascending) on transaction rows. -/
def dateLe (a b : Txn) : Prop := a.date ≤ b.date

/-- Ordering `ORDER BY date DESC` on transaction rows. -/
def dateGe (a b : Txn) : Prop := b.date ≤ a.date

instance : DecidableRel dateSymLe := fun _ _ =>
  inferInstanceAs (Decidable (_ ∨ _))

instance : DecidableRel dateLe := fun _ _ =>
  inferInstanceAs (Decidable (_ ≤ _))

instance : DecidableRel dateGe := fun _ _ =>
  inferInstanceAs (Decidable (_ ≤ _))

instance : IsTotal Txn dateSymLe where
  total a b := by
    unfold dateSymLe
    rcases lt_trichotomy a.date b.date with h | h | h
    · exact Or.inl (Or.inl h)
    · rcases le_total a.symbol b.symbol with hs | hs
      · exact Or.inl (Or.inr ⟨h, hs⟩)
      · exact Or.inr (Or.inr ⟨h.symm, hs⟩)
    · exact Or.inr (Or.inl h)

instance : IsTrans Txn dateSymLe where
  trans a b c hab hbc := by
    unfold dateSymLe at *
    rcases hab with h1 | ⟨h1, hs1⟩
    · rcases hbc with h2 | ⟨h2, _⟩
      · exact Or.inl (h1.trans h2)
      · exact Or.inl (h2 ▸ h1)
    · rcases hbc with h2 | ⟨h2, hs2⟩
      · exact Or.inl (h1 ▸ h2)
      · exact Or.inr ⟨h1.trans h2, hs1.trans hs2⟩

instance : IsTotal Txn dateLe where
  total a b := Int.le_total a.date b.date

instance : IsTrans Txn dateLe where
  trans _ _ _ hab hbc := Int.le_trans hab hbc

instance : IsTotal Txn dateGe where
  total a b := Int.le_total b.date a.date

instance : IsTrans Txn dateGe where
  trans _ _ _ hab hbc := Int.le_trans hbc hab

/-- The trailing six rows of a group once sorted ascending by date: the
six most recent trading days. Both variants evaluate the pattern on this
window. -/
def ascWindow (g : List Txn) : List Txn :=
  (List.insertionSort dateLe g).drop ((List.insertionSort dateLe g).length - 6)

/-- A row of the `stocks` table restricted to the columns the engine reads. -/
structure StockRow where
  index : String
  symbol : String
deriving DecidableEq, Repr

/-- A row of the `concept_names_em` table. -/
structure ConceptNameRow where
  concept_name : String
  concept_symbol : String
deriving DecidableEq, Repr

/-- A row of the `concept_cons_em` table. -/
structure ConceptConRow where
  symbol : String
  concept_symbol : String
deriving DecidableEq, Repr

/-- Embedding of `data_utils.fetch_symbols_by_index`: symbols whose
`stocks.index` is among `indices`; an empty selection means no filter
(`None`). -/
def fetch_symbols_by_index (stocks : List StockRow) (indices : List String) :
    Option (Finset String) :=
  if indices = [] then none
  else some (((stocks.filter fun r => decide (r.index ∈ indices)).map
    (·.symbol)).toFinset)

/-- Embedding of `data_utils.fetch_symbols_by_concept`: distinct symbols of
`concept_cons_em` rows joined to a `concept_names_em` row whose
`concept_name` is among `concepts`; an empty selection means no filter. -/
def fetch_symbols_by_concept (c_names : List ConceptNameRow)
    (c_cons : List ConceptConRow) (concepts : List String) :
    Option (Finset String) :=
  if concepts = [] then none
  else some (((c_cons.filter fun cc => c_names.any fun cn =>
      cn.concept_symbol == cc.concept_symbol &&
        decide (cn.concept_name ∈ concepts)).map (·.symbol)).toFinset)

/-- Embedding of `data_utils.merge_symbol_sets` (`None` = unrestricted). -/
def merge_symbol_sets :
    Option (Finset String) → Option (Finset String) → Option (Finset String)
  | none, none => none
  | none, some c => some c
  | some i, none => some i
  | some i, some c => some (i ∩ c)

/-- The SQL-side universe resolver: `merge_symbol_sets` applied to the two
membership fetches, as the callers of `data_utils` compose them. -/
def resolve_universe (stocks : List StockRow) (c_names : List ConceptNameRow)
    (c_cons : List ConceptConRow) (indices concepts : List String) :
    Option (Finset String) :=
  merge_symbol_sets (fetch_symbols_by_index stocks indices)
    (fetch_symbols_by_concept c_names c_cons concepts)

/-- Tri-state universe intersection as the spec states it: `none` is the
unrestricted sentinel and absorbs on either side, two concrete sets
intersect. This is the spec-side operation used to state the universe
intersection law. -/
def univInter :
    Option (Finset String) → Option (Finset String) → Option (Finset String)
  | none, b => b
  | a, none => a
  | some a, some b => some (a ∩ b)

/-- Embedding of `app.allowed_symbols_idx_cpt`: the pandas universe
resolver. Note that an empty selection on a dimension materializes the
full `stocks` symbol set for that dimension, and the result is always a
concrete set. -/
def allowed_symbols_idx_cpt (stocks_df : List StockRow)
    (c_names_df : List ConceptNameRow) (c_cons_df : List ConceptConRow)
    (sel_indices sel_concepts : List String) : Finset String :=
  let sym_by_idx :=
    if sel_indices ≠ [] then
      ((stocks_df.filter fun r => decide (r.index ∈ sel_indices)).map
        (·.symbol)).toFinset
    else (stocks_df.map (·.symbol)).toFinset
  let sym_by_cpt :=
    if sel_concepts ≠ [] then
      let sel_c_symbols : List String := (c_names_df.filter fun r =>
        decide (r.concept_name ∈ sel_concepts)).map (·.concept_symbol)
      ((c_cons_df.filter fun r =>
        decide (r.concept_symbol ∈ sel_c_symbols)).map (·.symbol)).toFinset
    else (stocks_df.map (·.symbol)).toFinset
  sym_by_idx ∩ sym_by_cpt

/-- Embedding of `data_utils.query_normal`: inclusive date range filter,
optional symbol restriction, `ORDER BY date, symbol`; a concretely empty
symbol set short-circuits to `pd.DataFrame(columns=[])` without touching
the store. -/
def query_normal (db : List Txn) (start_dt end_dt : Int)
    (symbols : Option (Finset String)) : DF Txn :=
  match symbols with
  | some s =>
    if s = ∅ then ⟨[], []⟩
    else ⟨transactionsColumns,
      List.insertionSort dateSymLe (db.filter fun t =>
        decide (start_dt ≤ t.date ∧ t.date ≤ end_dt ∧ t.symbol ∈ s))⟩
  | none =>
    ⟨transactionsColumns,
      List.insertionSort dateSymLe (db.filter fun t =>
        decide (start_dt ≤ t.date ∧ t.date ≤ end_dt))⟩

/-- WHERE clause of the `last6_desc` CTE of `query_five_day_yang`: rows on
or before the cutoff, optionally restricted to the symbol set. -/
def yangBase (db : List Txn) (end_dt : Int) (symbols : Option (Finset String)) :
    List Txn :=
  match symbols with
  | some s => db.filter fun t => decide (t.date ≤ end_dt ∧ t.symbol ∈ s)
  | none => db.filter fun t => decide (t.date ≤ end_dt)

/-- One symbol's partition of the `last6_desc` CTE: its rows ordered by
date descending, each paired with `ROW_NUMBER() ... ORDER BY date DESC`
(`rn_desc`, starting at 1). -/
def last6_desc (base : List Txn) (sym : String) : List (Txn × Nat) :=
  (List.enumFrom 1
    (List.insertionSort dateGe (base.filter fun t => t.symbol == sym))).map
    fun p => (p.2, p.1)

/-- One symbol's partition of the `last6` CTE: the rows with
`rn_desc ≤ 6`, re-indexed by `rn = 7 - rn_desc` (`rn = 1` is the oldest of
the six, `rn = 6` the most recent). -/
def last6 (base : List Txn) (sym : String) : List (Txn × Nat) :=
  ((last6_desc base sym).filter fun p => decide (p.2 ≤ 6)).map
    fun p => (p.1, 7 - p.2)

/-- Aggregate `MAX(CASE WHEN rn = k THEN f(row) END)` over one symbol's
`last6` rows; `none` is SQL `NULL` (the empty aggregate). -/
def caseAgg (l6 : List (Txn × Nat)) (k : Nat) (f : Txn → Rat) : Option Rat :=
  (l6.filterMap fun p => if p.2 = k then some (f p.1) else none).max?

/-- SQL comparison `a >= b` on nullable values: `NULL` on either side is
not `TRUE`. -/
def sqlGe : Option Rat → Option Rat → Bool
  | some x, some y => decide (y ≤ x)
  | _, _ => false

/-- HAVING clause of the `pattern_syms` CTE evaluated on one symbol's
group: six rows, `amount` at `rn = 2` at least `1.25 ×` the `amount` at
`rn = 1`, and the minimum `change_rate` over rows with `rn >= 3` at least
`-1`. -/
def pattern_holds (base : List Txn) (sym : String) : Bool :=
  let l6 := last6 base sym
  decide (l6.length = 6) &&
    sqlGe (caseAgg l6 2 (·.amount))
      ((caseAgg l6 1 (·.amount)).map fun v => (1.25 : Rat) * v) &&
    sqlGe ((l6.filterMap fun p =>
        if 3 ≤ p.2 then some p.1.change_rate else none).min?)
      (some (-1))

/-- `GROUP BY symbol` over the `last6` CTE filtered by the HAVING clause:
the qualifying symbols. -/
def pattern_syms (base : List Txn) : List String :=
  ((base.map (·.symbol)).dedup).filter (pattern_holds base)

/-- A row of the `summary` CTE; fields other than `symbol` are nullable
aggregates. -/
structure SummaryRow where
  date_start : Option Int
  date_end : Option Int
  symbol : String
  day5_close : Option Rat
  day5_open : Option Rat
  day4_close : Option Rat
  day3_close : Option Rat
  day2_close : Option Rat
  day1_close : Option Rat
  day0_close : Option Rat
deriving DecidableEq, Repr

/-- One group of the `summary` CTE: the aggregates over one symbol's
`last6` rows. -/
def summary_row (base : List Txn) (sym : String) : SummaryRow :=
  let l6 := last6 base sym
  { date_start := (l6.map fun p => p.1.date).min?
    date_end := (l6.map fun p => p.1.date).max?
    symbol := sym
    day5_close := caseAgg l6 6 (·.close)
    day5_open := caseAgg l6 6 (·.«open»)
    day4_close := caseAgg l6 5 (·.close)
    day3_close := caseAgg l6 4 (·.close)
    day2_close := caseAgg l6 3 (·.close)
    day1_close := caseAgg l6 2 (·.close)
    day0_close := caseAgg l6 1 (·.close) }

/-- Embedding of `data_utils.query_five_day_yang`: the full CTE pipeline,
`ORDER BY symbol`; a concretely empty symbol set short-circuits to
`pd.DataFrame(columns=[])` without touching the store. -/
def query_five_day_yang (db : List Txn) (end_dt : Int)
    (symbols : Option (Finset String)) : DF SummaryRow :=
  match symbols with
  | some s =>
    if s = ∅ then ⟨[], []⟩
    else ⟨summaryColumns,
      (List.insertionSort (· ≤ ·)
        (pattern_syms (yangBase db end_dt (some s)))).map
        (summary_row (yangBase db end_dt (some s)))⟩
  | none =>
    ⟨summaryColumns,
      (List.insertionSort (· ≤ ·)
        (pattern_syms (yangBase db end_dt none))).map
        (summary_row (yangBase db end_dt none))⟩

/-- Embedding of the inner `qualifies` predicate of
`app.five_day_yang_symbols`: `g` is one symbol's rows already cut at the
end date; sort by date, take the trailing six (`iloc[-6:]`), check the
amount surge on rows 0/1 and `change_rate ≥ -1` on rows 1..5. -/
def qualifies (g : List Txn) : Bool :=
  if g.length < 6 then false
  else
    decide ((1.25 : Rat) * ((ascWindow g).getD 0 default).amount ≤
        ((ascWindow g).getD 1 default).amount) &&
      ((ascWindow g).drop 1).all fun t => decide ((-1 : Rat) ≤ t.change_rate)

/-- Embedding of `app.five_day_yang_symbols`: the set of symbols whose cut
group satisfies `qualifies`. -/
def five_day_yang_symbols (tx_df : List Txn) (end_dt : Int) : Finset String :=
  let tx_cut := tx_df.filter fun t => decide (t.date ≤ end_dt)
  ((tx_cut.map (·.symbol)).toFinset).filter fun s =>
    qualifies (tx_cut.filter fun t => t.symbol == s) = true

/-- A summary row as built by `app.summary_for_yang` (plain values: the
pandas code indexes concrete positions of a six-row frame). -/
structure PdRow where
  date_start : Int
  date_end : Int
  symbol : String
  day5_close : Rat
  day5_open : Rat
  day4_close : Rat
  day3_close : Rat
  day2_close : Rat
  day1_close : Rat
  day0_close : Rat
deriving DecidableEq, Repr

/-- Row dictionary built by `app.summary_for_yang` for one symbol from
its six-row window `g` (`g.loc[i, column]` is `(g.getD i default).column`). -/
def pdSummaryRow (g : List Txn) (sym : String) : PdRow :=
  { date_start := (g.getD 0 default).date
    date_end := (g.getD 5 default).date
    symbol := sym
    day5_close := (g.getD 5 default).close
    day5_open := (g.getD 5 default).«open»
    day4_close := (g.getD 4 default).close
    day3_close := (g.getD 3 default).close
    day2_close := (g.getD 2 default).close
    day1_close := (g.getD 1 default).close
    day0_close := (g.getD 0 default).close }

/-- Embedding of `app.summary_for_yang`. The `symbols` argument is the
iteration order of the Python set passed in (Python string-set iteration
order is arbitrary); rows are emitted in that order; symbols whose cut
group has fewer than six rows are skipped. -/
def summary_for_yang (tx_df : List Txn) (symbols : List String)
    (end_dt : Int) : List PdRow :=
  symbols.filterMap fun sym =>
    if (ascWindow (tx_df.filter fun t =>
        t.symbol == sym && decide (t.date ≤ end_dt))).length < 6 then none
    else some (pdSummaryRow (ascWindow (tx_df.filter fun t =>
      t.symbol == sym && decide (t.date ≤ end_dt))) sym)

/-- Embedding of the Normal-mode pandas filter in `app.main`: the boolean
mask over `tx_df` (inclusive bounds, membership in the allowed set)
followed by `sort_values(["date", "symbol"])`. -/
def normal_mode_rows (tx_df : List Txn) (d_start d_end : Int)
    (sym_allowed : Finset String) : List Txn :=
  List.insertionSort dateSymLe (tx_df.filter fun t =>
    decide (d_start ≤ t.date) && decide (t.date ≤ d_end) &&
      decide (t.symbol ∈ sym_allowed))

/-- Rows of one symbol within a row list, in stored order (`groupby` /
`PARTITION BY symbol`). -/
def symGroup (base : List Txn) (sym : String) : List Txn :=
  base.filter fun t => t.symbol == sym

/-- The per-(symbol, date) uniqueness invariant of the data model: a
symbol has at most one record per date. -/
def UniquePerDay (db : List Txn) : Prop :=
  db.Pairwise fun a b => a.symbol = b.symbol → a.date ≠ b.date

/-- Membership of a symbol in a tri-state universe (`none` matches every
symbol). -/
def inUniverse (s : String) : Option (Finset String) → Prop
  | none => True
  | some u => s ∈ u

/-- The five-day-yang predicate as the spec states it, over an ascending
six-day window `day0 … day5`: amount surge on day1 and
`change_rate ≥ -1` on every day in day1…day5. -/
def specDetector (w : List Txn) : Prop :=
  (1.25 : Rat) * (w.getD 0 default).amount ≤ (w.getD 1 default).amount ∧
  ∀ i, 1 ≤ i → i ≤ 5 → (-1 : Rat) ≤ (w.getD i default).change_rate

/-- The predicate the SQL variant actually implements over the ascending
window: amount surge on day1 but `change_rate ≥ -1` only on day2…day5
(the HAVING clause restricts to `rn >= 3`, and day1 is `rn = 2`). -/
def sqlDetector (w : List Txn) : Prop :=
  (1.25 : Rat) * (w.getD 0 default).amount ≤ (w.getD 1 default).amount ∧
  ∀ i, 2 ≤ i → i ≤ 5 → (-1 : Rat) ≤ (w.getD i default).change_rate

/-- Concrete dataset: symbol `X`, six trading days `0…5`, amount surge
`100 → 125` on day1, but day1 `change_rate = -2` (a sharp pullback on
day1); all other change rates are `0`. -/
def exDbBug : List Txn :=
  [⟨"X", 0, 10, 20, 100, 0⟩, ⟨"X", 1, 11, 21, 125, -2⟩,
   ⟨"X", 2, 12, 22, 50, 0⟩, ⟨"X", 3, 13, 23, 50, 0⟩,
   ⟨"X", 4, 14, 24, 50, 0⟩, ⟨"X", 5, 15, 25, 50, 0⟩]

/-- Concrete dataset with two symbols `A` and `B`, each with six records
on days `0…5` satisfying the pattern. -/
def exDbAB : List Txn :=
  [⟨"A", 0, 1, 2, 100, 0⟩, ⟨"A", 1, 1, 2, 130, 0⟩, ⟨"A", 2, 1, 2, 50, 0⟩,
   ⟨"A", 3, 1, 2, 50, 0⟩, ⟨"A", 4, 1, 2, 50, 0⟩, ⟨"A", 5, 1, 2, 50, 0⟩,
   ⟨"B", 0, 3, 4, 100, 0⟩, ⟨"B", 1, 3, 4, 130, 0⟩, ⟨"B", 2, 3, 4, 50, 0⟩,
   ⟨"B", 3, 3, 4, 50, 0⟩, ⟨"B", 4, 3, 4, 50, 0⟩, ⟨"B", 5, 3, 4, 50, 0⟩]

/-- Parametric six-day dataset for the threshold boundaries: symbol `X`,
days `0…5`, day0 amount `100`, day1 amount `a1`, day3 change_rate `c3`,
all other change rates `0`. -/
def thrDb (a1 c3 : Rat) : List Txn :=
  [⟨"X", 0, 1, 2, 100, 0⟩, ⟨"X", 1, 1, 2, a1, 0⟩, ⟨"X", 2, 1, 2, 50, 0⟩,
   ⟨"X", 3, 1, 2, 50, c3⟩, ⟨"X", 4, 1, 2, 50, 0⟩, ⟨"X", 5, 1, 2, 50, 0⟩]

/-- Concrete one-row `stocks` table. -/
def exStocks : List StockRow := [⟨"SSE", "A"⟩]

/-- Sorting a list whose dates are pairwise distinct ascending by date
yields a strictly date-increasing list. -/
theorem sorted_strict_asc {g : List Txn}
    (h : g.Pairwise fun a b => a.date ≠ b.date) :
    (List.insertionSort dateLe g).Pairwise fun a b => a.date < b.date := by
  have hs : (List.insertionSort dateLe g).Pairwise dateLe :=
    List.sorted_insertionSort dateLe g
  have hne : (List.insertionSort dateLe g).Pairwise fun a b =>
      a.date ≠ b.date :=
    ((List.perm_insertionSort dateLe g).pairwise_iff
      (fun hxy => hxy.symm)).mpr h
  exact (hs.and hne).imp fun hp => lt_of_le_of_ne hp.1 hp.2

/-- Sorting a list whose dates are pairwise distinct descending by date
yields a strictly date-decreasing list. -/
theorem sorted_strict_desc {g : List Txn}
    (h : g.Pairwise fun a b => a.date ≠ b.date) :
    (List.insertionSort dateGe g).Pairwise fun a b => b.date < a.date := by
  have hs : (List.insertionSort dateGe g).Pairwise dateGe :=
    List.sorted_insertionSort dateGe g
  have hne : (List.insertionSort dateGe g).Pairwise fun a b =>
      a.date ≠ b.date :=
    ((List.perm_insertionSort dateGe g).pairwise_iff
      (fun hxy => hxy.symm)).mpr h
  exact (hs.and hne).imp fun hp => lt_of_le_of_ne hp.1 hp.2.symm

/-- On a list with pairwise-distinct dates, the descending date sort is
the reverse of the ascending date sort. -/
theorem desc_eq_reverse_asc {g : List Txn}
    (h : g.Pairwise fun a b => a.date ≠ b.date) :
    List.insertionSort dateGe g = (List.insertionSort dateLe g).reverse := by
  haveI : IsAntisymm Txn (fun a b : Txn => b.date < a.date) :=
    ⟨fun _ _ h1 h2 => absurd h1 (asymm h2)⟩
  refine List.eq_of_perm_of_sorted (r := fun a b : Txn => b.date < a.date)
    ?_ ?_ ?_
  · exact (List.perm_insertionSort dateGe g).trans
      (((List.perm_insertionSort dateLe g).symm).trans
        (List.reverse_perm _).symm)
  · exact sorted_strict_desc h
  · unfold List.Sorted
    rw [List.pairwise_reverse]
    exact sorted_strict_asc h

/-- A list of length six is literally a six-element list. -/
theorem exists_of_len6 {α : Type} {l : List α} (h : l.length = 6) :
    ∃ a b c d e f, l = [a, b, c, d, e, f] := by
  rcases l with _ | ⟨a, _ | ⟨b, _ | ⟨c, _ | ⟨d, _ | ⟨e, _ | ⟨f, rest⟩⟩⟩⟩⟩⟩ <;>
    simp only [List.length] at h <;> try omega
  have hrest : rest = [] := List.eq_nil_of_length_eq_zero (by omega)
  exact ⟨a, b, c, d, e, f, by rw [hrest]⟩

/-- The window has exactly six rows as soon as the group has at least
six. -/
theorem length_ascWindow {g : List Txn} (h : 6 ≤ g.length) :
    (ascWindow g).length = 6 := by
  simp only [ascWindow, List.length_drop, List.length_insertionSort]
  omega

/-- Rows numbered from seven onwards are all dropped by the
`rn_desc <= 6` filter. -/
theorem filter_big_rn (rest : List Txn) : ∀ n, 7 ≤ n →
    (((List.enumFrom n rest).map fun p => (p.2, p.1)).filter
      fun p => decide (p.2 ≤ 6)) = [] := by
  induction rest with
  | nil => intro n _; simp
  | cons a l ih =>
    intro n hn
    simp only [List.enumFrom_cons, List.map_cons, List.filter_cons]
    rw [decide_eq_false (by omega : ¬ n ≤ 6)]
    exact ih (n + 1) (by omega)

/-- Structure of the six-row window of one symbol's group: the ascending
window is some `[w0, …, w5]`, the SQL `last6` rows are exactly those six
rows paired with `rn = 1 … 6` from oldest to newest, the window is
strictly date-increasing, and its rows all come from the group. -/
theorem window_structure {base : List Txn} {sym : String}
    (hnd : (symGroup base sym).Pairwise fun a b => a.date ≠ b.date)
    (hlen : 6 ≤ (symGroup base sym).length) :
    ∃ w0 w1 w2 w3 w4 w5 : Txn,
      ascWindow (symGroup base sym) = [w0, w1, w2, w3, w4, w5] ∧
      last6 base sym = [(w5, 6), (w4, 5), (w3, 4), (w2, 3), (w1, 2), (w0, 1)] ∧
      ([w0, w1, w2, w3, w4, w5] : List Txn).Pairwise
        (fun a b => a.date < b.date) ∧
      (∀ t ∈ ([w0, w1, w2, w3, w4, w5] : List Txn), t ∈ symGroup base sym) := by
  obtain ⟨w0, w1, w2, w3, w4, w5, hw⟩ :=
    exists_of_len6 (length_ascWindow hlen)
  refine ⟨w0, w1, w2, w3, w4, w5, hw, ?_, ?_, ?_⟩
  · -- the SQL last6 rows
    have hdesc : List.insertionSort dateGe (symGroup base sym) =
        [w5, w4, w3, w2, w1, w0] ++
          (List.take ((List.insertionSort dateLe (symGroup base sym)).length - 6)
            (List.insertionSort dateLe (symGroup base sym))).reverse := by
      rw [desc_eq_reverse_asc hnd]
      conv_lhs => rw [← List.take_append_drop
        ((List.insertionSort dateLe (symGroup base sym)).length - 6)
        (List.insertionSort dateLe (symGroup base sym))]
      rw [List.reverse_append]
      congr 1
      have : List.drop ((List.insertionSort dateLe (symGroup base sym)).length - 6)
          (List.insertionSort dateLe (symGroup base sym)) = [w0, w1, w2, w3, w4, w5] := hw
      rw [this]
      rfl
    unfold last6 last6_desc
    unfold symGroup at hdesc
    rw [hdesc, List.enumFrom_append]
    simp [List.filter_eq_nil_iff, List.mem_map]
    intro a b x x1 hmem _ hxb
    have := List.le_fst_of_mem_enumFrom hmem
    omega
  · have hpw := sorted_strict_asc hnd
    have hsub : (ascWindow (symGroup base sym)).Pairwise
        (fun a b : Txn => a.date < b.date) :=
      List.Pairwise.sublist (List.drop_sublist _ _) hpw
    rwa [hw] at hsub
  · intro t ht
    rw [← hw] at ht
    have h1 : t ∈ List.insertionSort dateLe (symGroup base sym) :=
      List.mem_of_mem_drop ht
    rwa [List.mem_insertionSort] at h1

/-- The spec detector on an explicit six-row window, as a plain
conjunction. -/
theorem specDetector_cons (w0 w1 w2 w3 w4 w5 : Txn) :
    specDetector [w0, w1, w2, w3, w4, w5] ↔
      ((1.25 : Rat) * w0.amount ≤ w1.amount ∧
        (-1 : Rat) ≤ w1.change_rate ∧ (-1 : Rat) ≤ w2.change_rate ∧
        (-1 : Rat) ≤ w3.change_rate ∧ (-1 : Rat) ≤ w4.change_rate ∧
        (-1 : Rat) ≤ w5.change_rate) := by
  unfold specDetector
  constructor
  · rintro ⟨h1, h2⟩
    exact ⟨by simpa using h1, by simpa using h2 1 (by omega) (by omega),
      by simpa using h2 2 (by omega) (by omega),
      by simpa using h2 3 (by omega) (by omega),
      by simpa using h2 4 (by omega) (by omega),
      by simpa using h2 5 (by omega) (by omega)⟩
  · rintro ⟨h1, h2, h3, h4, h5, h6⟩
    refine ⟨by simpa using h1, ?_⟩
    intro i hi1 hi5
    interval_cases i <;> simpa

/-- The detector the SQL variant implements, on an explicit six-row
window, as a plain conjunction (day1's change_rate is not checked). -/
theorem sqlDetector_cons (w0 w1 w2 w3 w4 w5 : Txn) :
    sqlDetector [w0, w1, w2, w3, w4, w5] ↔
      ((1.25 : Rat) * w0.amount ≤ w1.amount ∧
        (-1 : Rat) ≤ w2.change_rate ∧ (-1 : Rat) ≤ w3.change_rate ∧
        (-1 : Rat) ≤ w4.change_rate ∧ (-1 : Rat) ≤ w5.change_rate) := by
  unfold sqlDetector
  constructor
  · rintro ⟨h1, h2⟩
    exact ⟨by simpa using h1, by simpa using h2 2 (by omega) (by omega),
      by simpa using h2 3 (by omega) (by omega),
      by simpa using h2 4 (by omega) (by omega),
      by simpa using h2 5 (by omega) (by omega)⟩
  · rintro ⟨h1, h3, h4, h5, h6⟩
    refine ⟨by simpa using h1, ?_⟩
    intro i hi1 hi5
    interval_cases i <;> simpa

/-- The pandas `qualifies` predicate holds exactly when the group has at
least six rows and its ascending window satisfies the spec's detector. -/
theorem qualifies_iff {g : List Txn} :
    qualifies g = true ↔ 6 ≤ g.length ∧ specDetector (ascWindow g) := by
  unfold qualifies
  by_cases h : g.length < 6
  · rw [if_pos h]
    simp only [Bool.false_eq_true, false_iff]
    rintro ⟨h6, _⟩
    omega
  · rw [if_neg h]
    obtain ⟨w0, w1, w2, w3, w4, w5, hw⟩ :=
      exists_of_len6 (length_ascWindow (g := g) (by omega))
    rw [hw, specDetector_cons]
    simp only [Bool.and_eq_true, decide_eq_true_eq, List.all_eq_true,
      List.drop_succ_cons, List.drop_zero, List.mem_cons]
    constructor
    · rintro ⟨h1, h2⟩
      refine ⟨by omega, by simpa using h1,
        h2 w1 (by simp), h2 w2 (by simp), h2 w3 (by simp),
        h2 w4 (by simp), h2 w5 (by simp)⟩
    · rintro ⟨_, h1, h2, h3, h4, h5, h6⟩
      refine ⟨by simpa using h1, ?_⟩
      intro t ht
      rcases ht with rfl | rfl | rfl | rfl | ht
      · exact h2
      · exact h3
      · exact h4
      · exact h5
      · rcases ht with rfl | ht
        · exact h6
        · cases ht

/-- The `last6` rows of a symbol are never more numerous than its group. -/
theorem last6_length_le (base : List Txn) (sym : String) :
    (last6 base sym).length ≤ (symGroup base sym).length := by
  unfold last6 last6_desc symGroup
  rw [List.length_map]
  refine le_trans (List.length_filter_le _ _) ?_
  simp

/-- The SQL HAVING clause holds exactly when the group has at least six
rows and its ascending window satisfies the detector the SQL implements
(no day1 change-rate check). -/
theorem pattern_holds_iff {base : List Txn} {sym : String}
    (hnd : (symGroup base sym).Pairwise fun a b => a.date ≠ b.date) :
    pattern_holds base sym = true ↔
      6 ≤ (symGroup base sym).length ∧
        sqlDetector (ascWindow (symGroup base sym)) := by
  by_cases hlen : 6 ≤ (symGroup base sym).length
  · obtain ⟨w0, w1, w2, w3, w4, w5, hw, hl6, hlt, hmem⟩ :=
      window_structure hnd hlen
    unfold pattern_holds
    rw [hl6, hw, sqlDetector_cons]
    norm_num [caseAgg, sqlGe, List.filterMap_cons, List.max?, List.min?,
      le_min_iff]
    constructor
    · rintro ⟨h1, ⟨⟨h5, h4⟩, h3⟩, h2⟩
      exact ⟨hlen, h1, h2, h3, h4, h5⟩
    · rintro ⟨_, h1, h2, h3, h4, h5⟩
      exact ⟨h1, ⟨⟨h5, h4⟩, h3⟩, h2⟩
  · have hne : ¬ (last6 base sym).length = 6 := by
      have h1 := last6_length_le base sym
      omega
    unfold pattern_holds
    simp only [decide_eq_false hne, Bool.false_and, Bool.false_eq_true,
      false_iff]
    rintro ⟨h6, _⟩
    exact hlen h6

/-- A symbol is in `pattern_syms` exactly when it occurs in the base rows
and its group passes the HAVING clause. -/
theorem mem_pattern_syms {base : List Txn} {s : String} :
    s ∈ pattern_syms base ↔
      (∃ t ∈ base, t.symbol = s) ∧ pattern_holds base s = true := by
  unfold pattern_syms
  rw [List.mem_filter, List.mem_dedup, List.mem_map]

/-- A symbol is reported by the pandas detector exactly when its cut
group satisfies `qualifies`. -/
theorem mem_five_day_yang {db : List Txn} {e : Int} {s : String} :
    s ∈ five_day_yang_symbols db e ↔
      qualifies (symGroup (yangBase db e none) s) = true := by
  unfold five_day_yang_symbols
  rw [Finset.mem_filter, List.mem_toFinset, List.mem_map]
  constructor
  · rintro ⟨_, hq⟩
    exact hq
  · intro hq
    refine ⟨?_, hq⟩
    have hlen : 6 ≤ (symGroup (yangBase db e none) s).length := by
      rcases qualifies_iff.mp hq with ⟨h6, _⟩
      exact h6
    have hpos : 0 < (symGroup (yangBase db e none) s).length := by omega
    obtain ⟨t, ht⟩ := List.exists_mem_of_length_pos hpos
    rcases List.mem_filter.mp ht with ⟨htb, hts⟩
    exact ⟨t, htb, by simpa using hts⟩

/-- The per-(symbol, date) invariant restricts to pairwise-distinct dates
within any symbol's group of any filtered base. -/
theorem group_dates_nodup {db : List Txn} (h : UniquePerDay db)
    (p : Txn → Bool) (s : String) :
    ((db.filter p).filter fun t => t.symbol == s).Pairwise
      fun a b => a.date ≠ b.date := by
  have h1 : ((db.filter p).filter fun t => t.symbol == s).Pairwise
      fun a b => a.symbol = b.symbol → a.date ≠ b.date :=
    (h.filter p).filter _
  refine h1.imp_of_mem ?_
  intro a b ha hb hab
  rcases List.mem_filter.mp ha with ⟨_, has⟩
  rcases List.mem_filter.mp hb with ⟨_, hbs⟩
  exact hab (by
    rw [beq_iff_eq] at has hbs
    rw [has, hbs])

/-- `yangBase` is a filter of the transaction list. -/
theorem yangBase_eq_filter (db : List Txn) (e : Int) :
    ∀ U : Option (Finset String), ∃ p : Txn → Bool,
      yangBase db e U = db.filter p ∧
      (∀ t, p t = true ↔ t.date ≤ e ∧ inUniverse t.symbol U)
  | none => ⟨fun t => decide (t.date ≤ e), rfl, by
      intro t; simp [inUniverse]⟩
  | some u => ⟨fun t => decide (t.date ≤ e ∧ t.symbol ∈ u), rfl, by
      intro t; simp [inUniverse]⟩

/-- Distinct dates within each symbol group of any `yangBase`. -/
theorem group_dates_nodup_yang {db : List Txn} (h : UniquePerDay db)
    (e : Int) (U : Option (Finset String)) (s : String) :
    (symGroup (yangBase db e U) s).Pairwise fun a b => a.date ≠ b.date := by
  obtain ⟨p, hp, _⟩ := yangBase_eq_filter db e U
  unfold symGroup
  rw [hp]
  exact group_dates_nodup h p s

/-- With the symbol inside the concrete universe, its cut group is the
same whether or not the universe restriction is applied. -/
theorem symGroup_yangBase_some {db : List Txn} {e : Int} {u : Finset String}
    {s : String} (hs : s ∈ u) :
    symGroup (yangBase db e (some u)) s = symGroup (yangBase db e none) s := by
  unfold symGroup yangBase
  rw [List.filter_filter, List.filter_filter]
  refine List.filter_congr ?_
  intro t _
  by_cases hts : t.symbol = s
  · simp [hts, hs]
  · have hfalse : (t.symbol == s) = false := beq_eq_false_iff_ne.mpr hts
    rw [hfalse]
    simp

/-- Any row of a symbol's group under a concrete universe witnesses that
the symbol belongs to the universe. -/
theorem symbol_mem_of_group_mem {db : List Txn} {e : Int} {u : Finset String}
    {s : String} {t : Txn} (ht : t ∈ symGroup (yangBase db e (some u)) s) :
    s ∈ u := by
  rcases List.mem_filter.mp ht with ⟨htb, hts⟩
  rcases List.mem_filter.mp htb with ⟨_, hcond⟩
  rw [beq_iff_eq] at hts
  rw [decide_eq_true_eq] at hcond
  exact hts ▸ hcond.2

/-- Row membership of `query_normal`: exactly the stored rows inside the
inclusive date range whose symbol passes the universe. -/
theorem mem_query_normal_rows {db : List Txn} {s e : Int}
    {U : Option (Finset String)} {t : Txn} :
    t ∈ (query_normal db s e U).rows ↔
      t ∈ db ∧ s ≤ t.date ∧ t.date ≤ e ∧ inUniverse t.symbol U := by
  cases U with
  | none =>
    simp only [query_normal, List.mem_insertionSort, List.mem_filter,
      decide_eq_true_eq, inUniverse, and_true]
  | some u =>
    by_cases hu : u = ∅
    · subst hu
      simp [query_normal, inUniverse]
    · simp only [query_normal, if_neg hu, List.mem_insertionSort,
        List.mem_filter, decide_eq_true_eq, inUniverse]

/-- Row membership of the Normal-mode pandas filter. -/
theorem mem_normal_mode_rows {db : List Txn} {ds de : Int}
    {su : Finset String} {t : Txn} :
    t ∈ normal_mode_rows db ds de su ↔
      t ∈ db ∧ ds ≤ t.date ∧ t.date ≤ de ∧ t.symbol ∈ su := by
  simp only [normal_mode_rows, List.mem_insertionSort, List.mem_filter,
    Bool.and_eq_true, decide_eq_true_eq]
  tauto

/-- Result rows of `query_normal` are sorted by `(date, symbol)`. -/
theorem query_normal_rows_sorted (db : List Txn) (s e : Int)
    (U : Option (Finset String)) :
    (query_normal db s e U).rows.Pairwise dateSymLe := by
  cases U with
  | none => exact List.sorted_insertionSort _ _
  | some u =>
    by_cases hu : u = ∅
    · subst hu
      simp [query_normal]
    · simp only [query_normal, if_neg hu]
      exact List.sorted_insertionSort _ _

/-- Result rows of the Normal-mode pandas filter are sorted by
`(date, symbol)`. -/
theorem normal_mode_rows_sorted (db : List Txn) (ds de : Int)
    (su : Finset String) :
    (normal_mode_rows db ds de su).Pairwise dateSymLe :=
  List.sorted_insertionSort _ _

/-- Result rows of `query_five_day_yang` are sorted ascending by symbol. -/
theorem yang_rows_sorted (db : List Txn) (e : Int)
    (U : Option (Finset String)) :
    (query_five_day_yang db e U).rows.Pairwise
      fun r1 r2 : SummaryRow => r1.symbol ≤ r2.symbol := by
  have key : ∀ base : List Txn,
      ((List.insertionSort (· ≤ ·) (pattern_syms base)).map
        (summary_row base)).Pairwise
        fun r1 r2 : SummaryRow => r1.symbol ≤ r2.symbol := by
    intro base
    rw [List.pairwise_map]
    have hs := List.sorted_insertionSort (α := String) (· ≤ ·)
      (pattern_syms base)
    exact hs.imp fun h => h
  cases U with
  | none => exact key _
  | some u =>
    by_cases hu : u = ∅
    · subst hu
      simp [query_five_day_yang]
    · simp only [query_five_day_yang, if_neg hu]
      exact key _

/-- A symbol appears among the result rows of `query_five_day_yang`
exactly when it is a pattern symbol of the corresponding base. -/
theorem yang_appears_iff {db : List Txn} {e : Int}
    {U : Option (Finset String)} {s : String} :
    (∃ r ∈ (query_five_day_yang db e U).rows, r.symbol = s) ↔
      s ∈ pattern_syms (yangBase db e U) := by
  have key : ∀ base : List Txn,
      (∃ r ∈ (List.insertionSort (· ≤ ·) (pattern_syms base)).map
        (summary_row base), r.symbol = s) ↔ s ∈ pattern_syms base := by
    intro base
    simp only [List.mem_map, List.mem_insertionSort]
    constructor
    · rintro ⟨r, ⟨a, ha, rfl⟩, hsym⟩
      have : a = s := hsym
      exact this ▸ ha
    · intro hs
      exact ⟨summary_row base s, ⟨s, hs, rfl⟩, rfl⟩
  cases U with
  | none => exact key _
  | some u =>
    by_cases hu : u = ∅
    · subst hu
      constructor
      · rintro ⟨r, hr, _⟩
        simp [query_five_day_yang] at hr
      · intro hs
        exfalso
        rcases mem_pattern_syms.mp hs with ⟨⟨t, ht, _⟩, _⟩
        simp [yangBase] at ht
    · simp only [query_five_day_yang, if_neg hu]
      exact key _

/-- The aggregates of the `summary` CTE read directly off the six-row
window: `MIN(date)` is day0's date, `MAX(date)` day5's, and each
`MAX(CASE WHEN rn=k …)` the corresponding day's value. -/
theorem summary_row_fields {base : List Txn} {sym : String}
    {w0 w1 w2 w3 w4 w5 : Txn}
    (hl6 : last6 base sym =
      [(w5, 6), (w4, 5), (w3, 4), (w2, 3), (w1, 2), (w0, 1)])
    (hlt : ([w0, w1, w2, w3, w4, w5] : List Txn).Pairwise
      fun a b => a.date < b.date) :
    summary_row base sym =
      { date_start := some w0.date, date_end := some w5.date, symbol := sym,
        day5_close := some w5.close, day5_open := some w5.«open»,
        day4_close := some w4.close, day3_close := some w3.close,
        day2_close := some w2.close, day1_close := some w1.close,
        day0_close := some w0.close } := by
  obtain ⟨h0, hlt1⟩ := List.pairwise_cons.mp hlt
  obtain ⟨h1, hlt2⟩ := List.pairwise_cons.mp hlt1
  obtain ⟨h2, hlt3⟩ := List.pairwise_cons.mp hlt2
  obtain ⟨h3, hlt4⟩ := List.pairwise_cons.mp hlt3
  obtain ⟨h4, _⟩ := List.pairwise_cons.mp hlt4
  have n54 : max w5.date w4.date = w5.date :=
    max_eq_left (h4 w5 (by simp)).le
  have n53 : max w5.date w3.date = w5.date :=
    max_eq_left (h3 w5 (by simp)).le
  have n52 : max w5.date w2.date = w5.date :=
    max_eq_left (h2 w5 (by simp)).le
  have n51 : max w5.date w1.date = w5.date :=
    max_eq_left (h1 w5 (by simp)).le
  have n50 : max w5.date w0.date = w5.date :=
    max_eq_left (h0 w5 (by simp)).le
  unfold summary_row
  rw [hl6]
  norm_num [caseAgg, List.filterMap_cons, List.max?, List.min?]
  rw [n54, n53, n52, n51, n50]
  exact ⟨⟨⟨⟨⟨(h0 w5 (by simp)).le, (h0 w4 (by simp)).le⟩,
    (h0 w3 (by simp)).le⟩, (h0 w2 (by simp)).le⟩,
    (h0 w1 (by simp)).le⟩, rfl⟩

/-- The pattern symbol list has no duplicates (`GROUP BY`). -/
theorem pattern_syms_nodup (base : List Txn) : (pattern_syms base).Nodup :=
  (List.nodup_dedup _).filter _

/-- Filtering the image of a symbol list under a symbol-preserving map for
one symbol of the list yields exactly that symbol's image. -/
theorem filter_map_single {l : List String} {f : String → SummaryRow}
    (hf : ∀ x, (f x).symbol = x) {s : String} (hs : s ∈ l)
    (hnd : l.Nodup) :
    (l.map f).filter (fun r => r.symbol == s) = [f s] := by
  induction l with
  | nil => cases hs
  | cons a t ih =>
    rcases List.nodup_cons.mp hnd with ⟨hna, hndt⟩
    rcases List.mem_cons.mp hs with rfl | hmem
    · simp only [List.map_cons, List.filter_cons, hf,
        beq_self_eq_true, if_pos]
      have htail : (t.map f).filter (fun r => r.symbol == s) = [] := by
        rw [List.filter_eq_nil_iff]
        intro r hr
        rcases List.mem_map.mp hr with ⟨x, hx, rfl⟩
        rw [hf]
        intro hbeq
        rw [beq_iff_eq] at hbeq
        exact hna (hbeq ▸ hx)
      rw [htail]
    · have hne : a ≠ s := fun h => hna (h ▸ hmem)
      simp only [List.map_cons, List.filter_cons, hf]
      rw [beq_eq_false_iff_ne.mpr hne, if_neg (by simp)]
      exact ih hmem hndt

/-- Variant of `filter_map_single` for `filterMap` producing pandas
summary rows. -/
theorem filterMap_single {l : List String} {f : String → Option PdRow}
    (hf : ∀ x r, f x = some r → r.symbol = x) {s : String} {rowS : PdRow}
    (hs : s ∈ l) (hnd : l.Nodup) (hsome : f s = some rowS) :
    (l.filterMap f).filter (fun r => r.symbol == s) = [rowS] := by
  induction l with
  | nil => cases hs
  | cons a t ih =>
    rcases List.nodup_cons.mp hnd with ⟨hna, hndt⟩
    rcases List.mem_cons.mp hs with rfl | hmem
    · rw [List.filterMap_cons, hsome, List.filter_cons]
      rw [if_pos (by rw [hf s rowS hsome]; simp)]
      have htail : (t.filterMap f).filter (fun r => r.symbol == s) = [] := by
        rw [List.filter_eq_nil_iff]
        intro r hr
        rcases List.mem_filterMap.mp hr with ⟨x, hx, hfx⟩
        rw [hf x r hfx]
        intro hbeq
        rw [beq_iff_eq] at hbeq
        exact hna (hbeq ▸ hx)
      rw [htail]
    · have hne : a ≠ s := fun h => hna (h ▸ hmem)
      rw [List.filterMap_cons]
      cases hfa : f a with
      | none => exact ih hmem hndt
      | some r =>
        rw [List.filter_cons]
        rw [if_neg (by rw [hf a r hfa]; simp [hne])]
        exact ih hmem hndt

/-- The window is shorter than six exactly when the group is. -/
theorem ascWindow_len_lt (g : List Txn) :
    (ascWindow g).length < 6 ↔ g.length < 6 := by
  simp only [ascWindow, List.length_drop, List.length_insertionSort]
  omega

/-- The single-filter group used by the pandas summary code equals the
symbol group of the cut. -/
theorem pd_group_eq (db : List Txn) (e : Int) (s : String) :
    (db.filter fun t => t.symbol == s && decide (t.date ≤ e)) =
      symGroup (yangBase db e none) s := by
  unfold symGroup yangBase
  rw [List.filter_filter]

/-- The pandas summary emits one row per input symbol with at least six
eligible rows, in input order. -/
theorem summary_for_yang_order (db : List Txn) (syms : List String)
    (e : Int) :
    (summary_for_yang db syms e).map (·.symbol) =
      syms.filter fun sym =>
        decide (6 ≤ (symGroup (yangBase db e none) sym).length) := by
  induction syms with
  | nil => rfl
  | cons a t ih =>
    unfold summary_for_yang at ih ⊢
    rw [List.filterMap_cons, List.filter_cons]
    by_cases h : (symGroup (yangBase db e none) a).length < 6
    · have hlt : (ascWindow (db.filter fun u =>
          u.symbol == a && decide (u.date ≤ e))).length < 6 := by
        rw [pd_group_eq, ascWindow_len_lt]
        exact h
      rw [if_pos hlt, decide_eq_false (by omega), if_neg (by simp)]
      exact ih
    · have hge : ¬ (ascWindow (db.filter fun u =>
          u.symbol == a && decide (u.date ≤ e))).length < 6 := by
        rw [pd_group_eq, ascWindow_len_lt]
        exact h
      rw [if_neg hge, decide_eq_true (by omega), if_pos rfl]
      rw [List.map_cons]
      exact congrArg (List.cons a) ih

/-- C6: with a concretely empty symbol universe, `query_normal` and
`query_five_day_yang` both return an empty result, and the result is the
same for every backing store — no query reaches the store. -/
theorem empty_universe_short_circuit (db : List Txn) (s e cutoff : Int) :
    (query_normal db s e (some ∅)).rows = [] ∧
    (query_five_day_yang db cutoff (some ∅)).rows = [] ∧
    query_normal db s e (some ∅) = query_normal [] s e (some ∅) ∧
    query_five_day_yang db cutoff (some ∅) =
      query_five_day_yang [] cutoff (some ∅) := by
  refine ⟨?_, ?_, ?_, ?_⟩ <;> simp [query_normal, query_five_day_yang]

/-- C10: the empty-universe short circuit returns a frame with zero
columns, while a query that merely matches no rows still carries the full
transaction (resp. summary) schema, which is non-empty. -/
theorem empty_universe_zero_columns (db : List Txn) (s e cutoff : Int)
    (u : Finset String) (hu : u ≠ ∅) :
    (query_normal db s e (some ∅)).columns = [] ∧
    (query_five_day_yang db cutoff (some ∅)).columns = [] ∧
    (query_normal db s e (some u)).columns = transactionsColumns ∧
    (query_five_day_yang db cutoff (some u)).columns = summaryColumns ∧
    (query_normal db s e none).columns = transactionsColumns ∧
    (query_five_day_yang db cutoff none).columns = summaryColumns ∧
    transactionsColumns ≠ [] ∧ summaryColumns ≠ [] := by
  refine ⟨?_, ?_, ?_, ?_, ?_, ?_, ?_, ?_⟩ <;>
    simp [query_normal, query_five_day_yang, hu, transactionsColumns,
      summaryColumns]

/-- Witness for C10 at concrete inputs. -/
theorem empty_universe_zero_columns_witness :
    ({"A"} : Finset String) ≠ ∅ ∧
    ((query_normal [] 0 1 (some ∅)).columns = [] ∧
      (query_five_day_yang [] 1 (some ∅)).columns = [] ∧
      (query_normal [] 0 1 (some {"A"})).columns = transactionsColumns ∧
      (query_five_day_yang [] 1 (some {"A"})).columns = summaryColumns ∧
      (query_normal [] 0 1 none).columns = transactionsColumns ∧
      (query_five_day_yang [] 1 none).columns = summaryColumns ∧
      transactionsColumns ≠ [] ∧ summaryColumns ≠ []) :=
  ⟨Finset.singleton_ne_empty "A",
    empty_universe_zero_columns [] 0 1 1 {"A"} (Finset.singleton_ne_empty "A")⟩

/-- C7: a record dated exactly on either inclusive bound (and passing the
symbol restriction) is returned by both range-query variants, and no
returned record is dated `startDate - 1` or `endDate + 1`. -/
theorem range_inclusivity (db : List Txn) (start_dt end_dt : Int)
    (U : Option (Finset String)) (su : Finset String) (t : Txn)
    (hrange : start_dt ≤ end_dt) (ht : t ∈ db) :
    ((t.date = start_dt ∨ t.date = end_dt) → inUniverse t.symbol U →
      t ∈ (query_normal db start_dt end_dt U).rows) ∧
    ((t.date = start_dt ∨ t.date = end_dt) → t.symbol ∈ su →
      t ∈ normal_mode_rows db start_dt end_dt su) ∧
    (∀ r ∈ (query_normal db start_dt end_dt U).rows,
      r.date ≠ start_dt - 1 ∧ r.date ≠ end_dt + 1) ∧
    (∀ r ∈ normal_mode_rows db start_dt end_dt su,
      r.date ≠ start_dt - 1 ∧ r.date ≠ end_dt + 1) := by
  refine ⟨?_, ?_, ?_, ?_⟩
  · intro hd hU
    rw [mem_query_normal_rows]
    rcases hd with h | h <;> exact ⟨ht, by omega, by omega, hU⟩
  · intro hd hsu
    rw [mem_normal_mode_rows]
    rcases hd with h | h <;> exact ⟨ht, by omega, by omega, hsu⟩
  · intro r hr
    rcases mem_query_normal_rows.mp hr with ⟨_, h1, h2, _⟩
    exact ⟨by omega, by omega⟩
  · intro r hr
    rcases mem_normal_mode_rows.mp hr with ⟨_, h1, h2, _⟩
    exact ⟨by omega, by omega⟩

/-- Witness for C7 at concrete inputs. -/
theorem range_inclusivity_witness :
    (0 : Int) ≤ 5 ∧ (⟨"A", 0, 1, 2, 100, 0⟩ : Txn) ∈ exDbAB ∧
    (((⟨"A", 0, 1, 2, 100, 0⟩ : Txn).date = 0 ∨
        (⟨"A", 0, 1, 2, 100, 0⟩ : Txn).date = 5) →
      inUniverse (⟨"A", 0, 1, 2, 100, 0⟩ : Txn).symbol none →
      (⟨"A", 0, 1, 2, 100, 0⟩ : Txn) ∈ (query_normal exDbAB 0 5 none).rows) ∧
    (((⟨"A", 0, 1, 2, 100, 0⟩ : Txn).date = 0 ∨
        (⟨"A", 0, 1, 2, 100, 0⟩ : Txn).date = 5) →
      (⟨"A", 0, 1, 2, 100, 0⟩ : Txn).symbol ∈ ({"A"} : Finset String) →
      (⟨"A", 0, 1, 2, 100, 0⟩ : Txn) ∈ normal_mode_rows exDbAB 0 5 {"A"}) ∧
    (∀ r ∈ (query_normal exDbAB 0 5 none).rows,
      r.date ≠ 0 - 1 ∧ r.date ≠ 5 + 1) ∧
    (∀ r ∈ normal_mode_rows exDbAB 0 5 {"A"},
      r.date ≠ 0 - 1 ∧ r.date ≠ 5 + 1) := by
  have h := range_inclusivity exDbAB 0 5 none {"A"}
    ⟨"A", 0, 1, 2, 100, 0⟩ (by omega) (by simp [exDbAB])
  exact ⟨by omega, by simp [exDbAB], h.1, h.2.1, h.2.2.1, h.2.2.2⟩

/-- C9: threshold comparisons of both detectors are exact and non-strict:
with day0 amount 100, day1 qualifies exactly when its amount is at least
125 (so 125.0 passes and anything below, e.g. 124.999, fails), and a
checked day's change_rate qualifies exactly when it is at least −1 (so
−1.0 passes and −1.0001 fails); stated for the pandas and the SQL
detector over the parametric window `thrDb a1 c3`. -/
theorem threshold_boundary (a1 c3 : Rat) :
    ("X" ∈ five_day_yang_symbols (thrDb a1 c3) 5 ↔ (125 ≤ a1 ∧ -1 ≤ c3)) ∧
    ("X" ∈ pattern_syms (yangBase (thrDb a1 c3) 5 none) ↔
      (125 ≤ a1 ∧ -1 ≤ c3)) := by
  constructor
  · rw [mem_five_day_yang, qualifies_iff]
    have hg : symGroup (yangBase (thrDb a1 c3) 5 none) "X" = thrDb a1 c3 := by
      norm_num [symGroup, yangBase, thrDb]
    rw [hg]
    have hw : ascWindow (thrDb a1 c3) = thrDb a1 c3 := by
      norm_num [ascWindow, dateLe, thrDb]
    rw [hw]
    unfold thrDb
    rw [specDetector_cons]
    norm_num
  · rw [mem_pattern_syms]
    have hbase : yangBase (thrDb a1 c3) 5 none = thrDb a1 c3 := by
      norm_num [yangBase, thrDb]
    rw [hbase]
    have hnd : (symGroup (thrDb a1 c3) "X").Pairwise
        fun a b => a.date ≠ b.date := by
      norm_num [symGroup, thrDb, List.pairwise_cons]
    have hg : symGroup (thrDb a1 c3) "X" = thrDb a1 c3 := by
      norm_num [symGroup, thrDb]
    rw [pattern_holds_iff hnd, hg]
    have hw : ascWindow (thrDb a1 c3) = thrDb a1 c3 := by
      norm_num [ascWindow, dateLe, thrDb]
    rw [hw]
    unfold thrDb
    rw [sqlDetector_cons]
    norm_num

/-- Counterexample for C3: with one stock row and both selections empty,
the SQL-side resolver propagates the unrestricted sentinel (`none`), but
`allowed_symbols_idx_cpt` returns the materialized full symbol list
`{"A"}` — not a sentinel — so the claim's sentinel clause fails for the
pandas resolver. -/
theorem universe_sentinel_counterexample :
    resolve_universe exStocks [] [] [] [] = none ∧
    allowed_symbols_idx_cpt exStocks [] [] [] [] = {"A"} ∧
    allowed_symbols_idx_cpt exStocks [] [] [] [] =
      (exStocks.map (·.symbol)).toFinset := by
  refine ⟨rfl, ?_, ?_⟩ <;> simp [allowed_symbols_idx_cpt, exStocks]

/-- C3 as amended: the intersection law holds for both resolvers, and
`resolve(∅, ∅)` is the unrestricted sentinel for the SQL-side resolver,
while the pandas resolver materializes the full stock symbol set. -/
theorem universe_intersection_amended (stocks : List StockRow)
    (c_names : List ConceptNameRow) (c_cons : List ConceptConRow)
    (I C : List String) :
    resolve_universe stocks c_names c_cons I C =
      univInter (resolve_universe stocks c_names c_cons I [])
        (resolve_universe stocks c_names c_cons [] C) ∧
    resolve_universe stocks c_names c_cons [] [] = none ∧
    allowed_symbols_idx_cpt stocks c_names c_cons I C =
      allowed_symbols_idx_cpt stocks c_names c_cons I [] ∩
        allowed_symbols_idx_cpt stocks c_names c_cons [] C ∧
    allowed_symbols_idx_cpt stocks c_names c_cons [] [] =
      (stocks.map (·.symbol)).toFinset := by
  have hsub : ∀ p : StockRow → Bool,
      ((stocks.filter p).map (·.symbol)).toFinset ⊆
        (stocks.map (·.symbol)).toFinset := by
    intro p x hx
    rw [List.mem_toFinset, List.mem_map] at hx ⊢
    rcases hx with ⟨r, hr, hsym⟩
    exact ⟨r, List.mem_of_mem_filter hr, hsym⟩
  refine ⟨?_, rfl, ?_, ?_⟩
  · unfold resolve_universe fetch_symbols_by_index fetch_symbols_by_concept
    by_cases hI : I = [] <;> by_cases hC : C = [] <;>
      simp [hI, hC, merge_symbol_sets, univInter]
  · unfold allowed_symbols_idx_cpt
    by_cases hI : I = [] <;> by_cases hC : C = []
    · simp [hI, hC]
    · simp only [hI, hC, ne_eq, not_true_eq_false, if_false,
        not_false_eq_true, if_true]
      ext x
      simp only [Finset.mem_inter]
      tauto
    · simp only [hI, hC, ne_eq, not_true_eq_false, if_false,
        not_false_eq_true, if_true]
      ext x
      simp only [Finset.mem_inter]
      tauto
    · simp only [hI, hC, ne_eq, not_false_eq_true, if_true]
      ext x
      simp only [Finset.mem_inter]
      constructor
      · rintro ⟨hA, hB⟩
        exact ⟨⟨hA, hsub _ hA⟩, hsub _ hA, hB⟩
      · rintro ⟨⟨hA, _⟩, _, hB⟩
        exact ⟨hA, hB⟩
  · simp [allowed_symbols_idx_cpt]

/-- Counterexample for C4: `summary_for_yang` emits rows in the iteration
order of the symbol set it is given, so with iteration order
`["B", "A"]` (both symbols qualifying) its result is not sorted ascending
by symbol. -/
theorem summary_ordering_counterexample :
    ¬ (summary_for_yang exDbAB ["B", "A"] 9).Pairwise
        (fun r1 r2 : PdRow => r1.symbol ≤ r2.symbol) := by
  intro h
  have hmap : (summary_for_yang exDbAB ["B", "A"] 9).map (·.symbol) =
      ["B", "A"] := by
    rw [summary_for_yang_order]
    decide
  have h2 : (["B", "A"] : List String).Pairwise (· ≤ ·) := by
    rw [← hmap]
    exact List.pairwise_map.mpr h
  have h3 : ("B" : String) ≤ "A" :=
    (List.pairwise_cons.mp h2).1 "A" (by simp)
  have h4 : ¬ ("B" : String) ≤ "A" := by
    rw [String.le_iff_toList_le]
    decide
  exact h4 h3

/-- C4 as amended: both SQL variants and the pandas Normal-mode filter
are sorted as claimed — `(date, symbol)` for the range queries, symbol
for the SQL summary — but the pandas summary (`summary_for_yang`) emits
one row per qualifying symbol in the iteration order of the given set,
with no sort of its own. -/
theorem ordering_amended (db : List Txn) (s e cutoff : Int)
    (U : Option (Finset String)) (su : Finset String) (syms : List String) :
    (query_normal db s e U).rows.Pairwise dateSymLe ∧
    (normal_mode_rows db s e su).Pairwise dateSymLe ∧
    (query_five_day_yang db cutoff U).rows.Pairwise
      (fun r1 r2 : SummaryRow => r1.symbol ≤ r2.symbol) ∧
    (summary_for_yang db syms e).map (·.symbol) =
      syms.filter (fun sym =>
        decide (6 ≤ (symGroup (yangBase db e none) sym).length)) :=
  ⟨query_normal_rows_sorted db s e U, normal_mode_rows_sorted db s e su,
    yang_rows_sorted db cutoff U, summary_for_yang_order db syms e⟩

/-- C1 (bug evidence): on `exDbBug` the six-day window of `X` has
day1 `change_rate = -2 < -1`, so the spec's detector predicate fails and
the pandas detector rejects the symbol — yet the SQL query still reports
`X`, because its HAVING clause checks `change_rate` only for `rn >= 3`
(day2…day5), skipping day1. -/
theorem sql_day1_change_rate_bug :
    ((ascWindow (symGroup (yangBase exDbBug 5 none) "X")).getD 1
        default).change_rate < -1 ∧
    ¬ specDetector (ascWindow (symGroup (yangBase exDbBug 5 none) "X")) ∧
    five_day_yang_symbols exDbBug 5 = ∅ ∧
    (query_five_day_yang exDbBug 5 none).rows.map (·.symbol) = ["X"] := by
  have hg : symGroup (yangBase exDbBug 5 none) "X" = exDbBug := by
    norm_num [symGroup, yangBase, exDbBug]
  have hw : ascWindow exDbBug = exDbBug := by
    norm_num [ascWindow, dateLe, exDbBug]
  have hph : pattern_holds (yangBase exDbBug 5 none) "X" = true := by
    norm_num [pattern_holds, last6, last6_desc, yangBase, caseAgg, sqlGe,
      dateGe, List.filterMap_cons, List.max?, List.min?, min_def, exDbBug]
  refine ⟨?_, ?_, ?_, ?_⟩
  · rw [hg, hw]
    norm_num [exDbBug]
  · rw [hg, hw]
    unfold exDbBug
    rw [specDetector_cons]
    norm_num
  · rw [Finset.eq_empty_iff_forall_not_mem]
    intro x
    rw [mem_five_day_yang, qualifies_iff]
    rintro ⟨hlen, hdet⟩
    have hx : x = "X" := by
      by_contra hne
      have hyb : yangBase exDbBug 5 none = exDbBug := by
        norm_num [yangBase, exDbBug]
      rw [hyb] at hlen
      have hempty : symGroup exDbBug x = [] := by
        unfold symGroup exDbBug
        rw [List.filter_eq_nil_iff]
        intro t ht
        fin_cases ht <;>
          · simp only [beq_iff_eq]
            exact fun hxx => hne hxx.symm
      rw [hempty] at hlen
      simp at hlen
    subst hx
    rw [hg, hw] at hdet
    unfold exDbBug at hdet
    rw [specDetector_cons] at hdet
    norm_num at hdet
  · have hsyms : pattern_syms (yangBase exDbBug 5 none) = ["X"] := by
      unfold pattern_syms
      have hmap : ((yangBase exDbBug 5 none).map (·.symbol)).dedup = ["X"] := by
        norm_num [yangBase, exDbBug]
      rw [hmap, List.filter_cons, hph]
      rfl
    simp only [query_five_day_yang, hsyms]
    rfl

/-- Counterexample for C2: on `exDbBug` (cutoff 5, unrestricted universe)
the SQL detector qualifies `X` while the pandas detector does not — the
two variants do not qualify the same set of symbols. -/
theorem detector_equivalence_counterexample :
    "X" ∈ pattern_syms (yangBase exDbBug 5 none) ∧
    "X" ∉ five_day_yang_symbols exDbBug 5 := by
  constructor
  · rw [mem_pattern_syms]
    constructor
    · exact ⟨⟨"X", 0, 10, 20, 100, 0⟩, by norm_num [yangBase, exDbBug], rfl⟩
    · norm_num [pattern_holds, last6, last6_desc, yangBase, caseAgg, sqlGe,
        dateGe, List.filterMap_cons, List.max?, List.min?, min_def, exDbBug]
  · rw [mem_five_day_yang, qualifies_iff]
    rintro ⟨_, hdet⟩
    have hg : symGroup (yangBase exDbBug 5 none) "X" = exDbBug := by
      norm_num [symGroup, yangBase, exDbBug]
    have hw : ascWindow exDbBug = exDbBug := by
      norm_num [ascWindow, dateLe, exDbBug]
    rw [hg, hw] at hdet
    unfold exDbBug at hdet
    rw [specDetector_cons] at hdet
    norm_num at hdet

/-- C2 as amended: every symbol the pandas detector qualifies (and that
passes the universe) is also qualified by the SQL detector; conversely a
SQL-qualified symbol passes the universe and is either pandas-qualified
or has a day1 change_rate below −1 in its window — the only behavioural
difference between the two variants. -/
theorem detector_refinement (db : List Txn) (e : Int)
    (U : Option (Finset String)) (s : String) (h : UniquePerDay db) :
    (inUniverse s U → s ∈ five_day_yang_symbols db e →
      s ∈ pattern_syms (yangBase db e U)) ∧
    (s ∈ pattern_syms (yangBase db e U) →
      inUniverse s U ∧
        (s ∈ five_day_yang_symbols db e ∨
          ((ascWindow (symGroup (yangBase db e none) s)).getD 1
            default).change_rate < -1)) := by
  have hgeq : inUniverse s U →
      symGroup (yangBase db e U) s = symGroup (yangBase db e none) s := by
    intro hU
    cases U with
    | none => rfl
    | some u => exact symGroup_yangBase_some hU
  constructor
  · intro hU hpd
    rw [mem_five_day_yang, qualifies_iff] at hpd
    rcases hpd with ⟨hlen, hdet⟩
    rw [mem_pattern_syms]
    have hg := hgeq hU
    constructor
    · have hpos : 0 < (symGroup (yangBase db e U) s).length := by
        rw [hg]; omega
      obtain ⟨t, ht⟩ := List.exists_mem_of_length_pos hpos
      rcases List.mem_filter.mp ht with ⟨htb, hts⟩
      exact ⟨t, htb, by simpa using hts⟩
    · rw [pattern_holds_iff (group_dates_nodup_yang h e U s), hg]
      refine ⟨hlen, hdet.1, ?_⟩
      intro i h2 h5
      exact hdet.2 i (by omega) h5
  · intro hsql
    rcases mem_pattern_syms.mp hsql with ⟨_, hph⟩
    rw [pattern_holds_iff (group_dates_nodup_yang h e U s)] at hph
    rcases hph with ⟨hlen, hdet⟩
    have hU : inUniverse s U := by
      cases U with
      | none => trivial
      | some u =>
        have hpos : 0 < (symGroup (yangBase db e (some u)) s).length := by
          omega
        obtain ⟨t, ht⟩ := List.exists_mem_of_length_pos hpos
        exact symbol_mem_of_group_mem ht
    have hg := hgeq hU
    rw [hg] at hlen hdet
    refine ⟨hU, ?_⟩
    by_cases hday1 : (-1 : Rat) ≤
        ((ascWindow (symGroup (yangBase db e none) s)).getD 1
          default).change_rate
    · left
      rw [mem_five_day_yang, qualifies_iff]
      refine ⟨hlen, hdet.1, ?_⟩
      intro i h1 h5
      rcases Nat.lt_or_ge i 2 with h2 | h2
      · have : i = 1 := by omega
        rw [this]
        exact hday1
      · exact hdet.2 i h2 h5
    · right
      exact lt_of_not_le hday1

/-- Witness for C2's amended theorem at concrete inputs. -/
theorem detector_refinement_witness :
    UniquePerDay exDbBug ∧
    ((inUniverse "X" none → "X" ∈ five_day_yang_symbols exDbBug 5 →
        "X" ∈ pattern_syms (yangBase exDbBug 5 none)) ∧
      ("X" ∈ pattern_syms (yangBase exDbBug 5 none) →
        inUniverse "X" none ∧
          ("X" ∈ five_day_yang_symbols exDbBug 5 ∨
            ((ascWindow (symGroup (yangBase exDbBug 5 none) "X")).getD 1
              default).change_rate < -1))) :=
  ⟨by norm_num [UniquePerDay, exDbBug, List.pairwise_cons],
    detector_refinement exDbBug 5 none "X"
      (by norm_num [UniquePerDay, exDbBug, List.pairwise_cons])⟩

/-- C5: window-size boundary, for both variants under the unrestricted
universe. A symbol with exactly five eligible records never appears in
the pattern output; with exactly six the detector is evaluated on all six
(sorted by date); with seven or more, the evaluated window is six rows of
the group and every group row outside it is strictly older than every
window row. -/
theorem window_size_boundary (db : List Txn) (cutoff : Int) (s : String)
    (h : UniquePerDay db) :
    ((symGroup (yangBase db cutoff none) s).length = 5 →
      ¬ (∃ r ∈ (query_five_day_yang db cutoff none).rows, r.symbol = s) ∧
      s ∉ five_day_yang_symbols db cutoff) ∧
    ((symGroup (yangBase db cutoff none) s).length = 6 →
      ascWindow (symGroup (yangBase db cutoff none) s) =
        List.insertionSort dateLe (symGroup (yangBase db cutoff none) s) ∧
      ((∃ r ∈ (query_five_day_yang db cutoff none).rows, r.symbol = s) ↔
        sqlDetector (ascWindow (symGroup (yangBase db cutoff none) s))) ∧
      (s ∈ five_day_yang_symbols db cutoff ↔
        specDetector (ascWindow (symGroup (yangBase db cutoff none) s)))) ∧
    (7 ≤ (symGroup (yangBase db cutoff none) s).length →
      (ascWindow (symGroup (yangBase db cutoff none) s)).length = 6 ∧
      (∀ t ∈ ascWindow (symGroup (yangBase db cutoff none) s),
        t ∈ symGroup (yangBase db cutoff none) s) ∧
      (∀ t ∈ symGroup (yangBase db cutoff none) s,
        t ∉ ascWindow (symGroup (yangBase db cutoff none) s) →
        ∀ u ∈ ascWindow (symGroup (yangBase db cutoff none) s),
          t.date < u.date) ∧
      ((∃ r ∈ (query_five_day_yang db cutoff none).rows, r.symbol = s) ↔
        sqlDetector (ascWindow (symGroup (yangBase db cutoff none) s))) ∧
      (s ∈ five_day_yang_symbols db cutoff ↔
        specDetector (ascWindow (symGroup (yangBase db cutoff none) s)))) := by
  have hnd := group_dates_nodup_yang h cutoff none s
  have hsql : ∀ hlen : 6 ≤ (symGroup (yangBase db cutoff none) s).length,
      ((∃ r ∈ (query_five_day_yang db cutoff none).rows, r.symbol = s) ↔
        sqlDetector (ascWindow (symGroup (yangBase db cutoff none) s))) := by
    intro hlen
    rw [yang_appears_iff, mem_pattern_syms, pattern_holds_iff hnd]
    constructor
    · rintro ⟨_, _, hdet⟩
      exact hdet
    · intro hdet
      have hpos : 0 < (symGroup (yangBase db cutoff none) s).length := by
        omega
      obtain ⟨t, ht⟩ := List.exists_mem_of_length_pos hpos
      rcases List.mem_filter.mp ht with ⟨htb, hts⟩
      exact ⟨⟨t, htb, by simpa using hts⟩, hlen, hdet⟩
  have hpd : (s ∈ five_day_yang_symbols db cutoff ↔
      qualifies (symGroup (yangBase db cutoff none) s) = true) :=
    mem_five_day_yang
  refine ⟨?_, ?_, ?_⟩
  · intro h5
    constructor
    · rw [yang_appears_iff, mem_pattern_syms,
        pattern_holds_iff hnd]
      rintro ⟨_, hlen, _⟩
      omega
    · rw [hpd, qualifies_iff]
      rintro ⟨hlen, _⟩
      omega
  · intro h6
    refine ⟨?_, hsql (by omega), ?_⟩
    · unfold ascWindow
      rw [List.length_insertionSort, h6]
      norm_num
    · rw [hpd, qualifies_iff]
      constructor
      · rintro ⟨_, hdet⟩
        exact hdet
      · intro hdet
        exact ⟨by omega, hdet⟩
  · intro h7
    have hlen : 6 ≤ (symGroup (yangBase db cutoff none) s).length := by omega
    refine ⟨length_ascWindow hlen, ?_, ?_, hsql hlen, ?_⟩
    · intro t ht
      have h1 : t ∈ List.insertionSort dateLe
          (symGroup (yangBase db cutoff none) s) :=
        List.mem_of_mem_drop ht
      rwa [List.mem_insertionSort] at h1
    · intro t htg htw u hu
      have hsorted := sorted_strict_asc hnd
      have hsplit := List.take_append_drop
        ((List.insertionSort dateLe (symGroup (yangBase db cutoff none)
          s)).length - 6)
        (List.insertionSort dateLe (symGroup (yangBase db cutoff none) s))
      have hta : t ∈ List.insertionSort dateLe
          (symGroup (yangBase db cutoff none) s) := by
        rw [List.mem_insertionSort]
        exact htg
      rw [← hsplit] at hta
      rcases List.mem_append.mp hta with htake | hdrop
      · have hpa : List.Pairwise (fun a b : Txn => a.date < b.date)
            (List.take ((List.insertionSort dateLe
                (symGroup (yangBase db cutoff none) s)).length - 6)
              (List.insertionSort dateLe
                (symGroup (yangBase db cutoff none) s)) ++
              ascWindow (symGroup (yangBase db cutoff none) s)) := by
          unfold ascWindow
          rw [hsplit]
          exact hsorted
        exact (List.pairwise_append.mp hpa).2.2 t htake u hu
      · exact absurd hdrop htw
    · rw [hpd, qualifies_iff]
      constructor
      · rintro ⟨_, hdet⟩
        exact hdet
      · intro hdet
        exact ⟨by omega, hdet⟩

/-- Witness for C5 at concrete inputs (symbol `A` of `exDbAB` has exactly
six eligible records). -/
theorem window_size_boundary_witness :
    UniquePerDay exDbAB ∧
    (((symGroup (yangBase exDbAB 9 none) "A").length = 5 →
      ¬ (∃ r ∈ (query_five_day_yang exDbAB 9 none).rows, r.symbol = "A") ∧
      "A" ∉ five_day_yang_symbols exDbAB 9) ∧
    ((symGroup (yangBase exDbAB 9 none) "A").length = 6 →
      ascWindow (symGroup (yangBase exDbAB 9 none) "A") =
        List.insertionSort dateLe (symGroup (yangBase exDbAB 9 none) "A") ∧
      ((∃ r ∈ (query_five_day_yang exDbAB 9 none).rows, r.symbol = "A") ↔
        sqlDetector (ascWindow (symGroup (yangBase exDbAB 9 none) "A"))) ∧
      ("A" ∈ five_day_yang_symbols exDbAB 9 ↔
        specDetector (ascWindow (symGroup (yangBase exDbAB 9 none) "A")))) ∧
    (7 ≤ (symGroup (yangBase exDbAB 9 none) "A").length →
      (ascWindow (symGroup (yangBase exDbAB 9 none) "A")).length = 6 ∧
      (∀ t ∈ ascWindow (symGroup (yangBase exDbAB 9 none) "A"),
        t ∈ symGroup (yangBase exDbAB 9 none) "A") ∧
      (∀ t ∈ symGroup (yangBase exDbAB 9 none) "A",
        t ∉ ascWindow (symGroup (yangBase exDbAB 9 none) "A") →
        ∀ u ∈ ascWindow (symGroup (yangBase exDbAB 9 none) "A"),
          t.date < u.date) ∧
      ((∃ r ∈ (query_five_day_yang exDbAB 9 none).rows, r.symbol = "A") ↔
        sqlDetector (ascWindow (symGroup (yangBase exDbAB 9 none) "A"))) ∧
      ("A" ∈ five_day_yang_symbols exDbAB 9 ↔
        specDetector (ascWindow (symGroup (yangBase exDbAB 9 none) "A"))))) :=
  ⟨by norm_num [UniquePerDay, exDbAB, List.pairwise_cons]; decide,
    window_size_boundary exDbAB 9 "A"
      (by norm_num [UniquePerDay, exDbAB, List.pairwise_cons]; decide)⟩

/-- C8: for a qualifying symbol, each summary projector emits exactly one
row, whose fields read directly off the symbol's six-day window:
`date_start` is day0's date (oldest), `date_end` day5's (most recent, on
or before the cutoff), and the day-5 close/open plus day-4…day-0 closes
are the corresponding window values. Stated for the SQL summary CTE and
for `summary_for_yang` run over a duplicate-free symbol iteration
containing the symbol. -/
theorem summary_projection (db : List Txn) (cutoff : Int) (s : String)
    (syms : List String) (h : UniquePerDay db)
    (hq : s ∈ pattern_syms (yangBase db cutoff none))
    (hsyms : s ∈ syms) (hnodup : syms.Nodup) :
    ∃ w0 w1 w2 w3 w4 w5 : Txn,
      ascWindow (symGroup (yangBase db cutoff none) s) =
        [w0, w1, w2, w3, w4, w5] ∧
      w0.date < w1.date ∧ w1.date < w2.date ∧ w2.date < w3.date ∧
      w3.date < w4.date ∧ w4.date < w5.date ∧ w5.date ≤ cutoff ∧
      ((query_five_day_yang db cutoff none).rows.filter
          fun r => r.symbol == s) =
        [{ date_start := some w0.date, date_end := some w5.date, symbol := s,
           day5_close := some w5.close, day5_open := some w5.«open»,
           day4_close := some w4.close, day3_close := some w3.close,
           day2_close := some w2.close, day1_close := some w1.close,
           day0_close := some w0.close }] ∧
      ((summary_for_yang db syms cutoff).filter fun r => r.symbol == s) =
        [{ date_start := w0.date, date_end := w5.date, symbol := s,
           day5_close := w5.close, day5_open := w5.«open»,
           day4_close := w4.close, day3_close := w3.close,
           day2_close := w2.close, day1_close := w1.close,
           day0_close := w0.close }] := by
  have hnd := group_dates_nodup_yang h cutoff none s
  have hlen : 6 ≤ (symGroup (yangBase db cutoff none) s).length := by
    rcases mem_pattern_syms.mp hq with ⟨_, hph⟩
    exact ((pattern_holds_iff hnd).mp hph).1
  obtain ⟨w0, w1, w2, w3, w4, w5, hw, hl6, hlt, hmem⟩ :=
    window_structure hnd hlen
  obtain ⟨h0, hlt1⟩ := List.pairwise_cons.mp hlt
  obtain ⟨h1, hlt2⟩ := List.pairwise_cons.mp hlt1
  obtain ⟨h2, hlt3⟩ := List.pairwise_cons.mp hlt2
  obtain ⟨h3, hlt4⟩ := List.pairwise_cons.mp hlt3
  obtain ⟨h4, _⟩ := List.pairwise_cons.mp hlt4
  have hcut : w5.date ≤ cutoff := by
    have hm := hmem w5 (by simp)
    have hyb : w5 ∈ yangBase db cutoff none := List.mem_of_mem_filter hm
    rcases List.mem_filter.mp hyb with ⟨_, hc⟩
    exact decide_eq_true_eq.mp hc
  refine ⟨w0, w1, w2, w3, w4, w5, hw, h0 w1 (by simp), h1 w2 (by simp),
    h2 w3 (by simp), h3 w4 (by simp), h4 w5 (by simp), hcut, ?_, ?_⟩
  · have hrows : (query_five_day_yang db cutoff none).rows =
        (List.insertionSort (· ≤ ·) (pattern_syms (yangBase db cutoff
          none))).map (summary_row (yangBase db cutoff none)) := rfl
    rw [hrows]
    rw [filter_map_single (fun _ => rfl) ((List.mem_insertionSort _).mpr hq)
      (((List.perm_insertionSort _ _).nodup_iff).mpr
        (pattern_syms_nodup _))]
    rw [summary_row_fields hl6 hlt]
  · have hc : ¬ (ascWindow (db.filter fun t =>
        t.symbol == s && decide (t.date ≤ cutoff))).length < 6 := by
      rw [pd_group_eq, ascWindow_len_lt]
      omega
    have hf : ∀ (x : String) (r : PdRow),
        (if (ascWindow (db.filter fun t =>
            t.symbol == x && decide (t.date ≤ cutoff))).length < 6 then none
          else some (pdSummaryRow (ascWindow (db.filter fun t =>
            t.symbol == x && decide (t.date ≤ cutoff))) x)) = some r →
        r.symbol = x := by
      intro x r hr
      by_cases hcx : (ascWindow (db.filter fun t =>
          t.symbol == x && decide (t.date ≤ cutoff))).length < 6
      · rw [if_pos hcx] at hr
        cases hr
      · rw [if_neg hcx] at hr
        cases hr
        rfl
    have hsome : (if (ascWindow (db.filter fun t =>
        t.symbol == s && decide (t.date ≤ cutoff))).length < 6 then none
        else some (pdSummaryRow (ascWindow (db.filter fun t =>
          t.symbol == s && decide (t.date ≤ cutoff))) s)) =
        some (pdSummaryRow
          (ascWindow (symGroup (yangBase db cutoff none) s)) s) := by
      rw [if_neg hc, pd_group_eq]
    unfold summary_for_yang
    rw [filterMap_single hf hsyms hnodup hsome, hw]
    unfold pdSummaryRow
    norm_num

/-- Witness for C8 at concrete inputs (`A` qualifies in `exDbAB`). -/
theorem summary_projection_witness :
    UniquePerDay exDbAB ∧
    "A" ∈ pattern_syms (yangBase exDbAB 9 none) ∧
    "A" ∈ (["A"] : List String) ∧ (["A"] : List String).Nodup ∧
    (∃ w0 w1 w2 w3 w4 w5 : Txn,
      ascWindow (symGroup (yangBase exDbAB 9 none) "A") =
        [w0, w1, w2, w3, w4, w5] ∧
      w0.date < w1.date ∧ w1.date < w2.date ∧ w2.date < w3.date ∧
      w3.date < w4.date ∧ w4.date < w5.date ∧ w5.date ≤ 9 ∧
      ((query_five_day_yang exDbAB 9 none).rows.filter
          fun r => r.symbol == "A") =
        [{ date_start := some w0.date, date_end := some w5.date,
           symbol := "A",
           day5_close := some w5.close, day5_open := some w5.«open»,
           day4_close := some w4.close, day3_close := some w3.close,
           day2_close := some w2.close, day1_close := some w1.close,
           day0_close := some w0.close }] ∧
      ((summary_for_yang exDbAB ["A"] 9).filter
          fun r => r.symbol == "A") =
        [{ date_start := w0.date, date_end := w5.date, symbol := "A",
           day5_close := w5.close, day5_open := w5.«open»,
           day4_close := w4.close, day3_close := w3.close,
           day2_close := w2.close, day1_close := w1.close,
           day0_close := w0.close }]) := by
  have huniq : UniquePerDay exDbAB := by
    norm_num [UniquePerDay, exDbAB, List.pairwise_cons]; decide
  have hq : "A" ∈ pattern_syms (yangBase exDbAB 9 none) := by
    have hBA : (("B" : String) == "A") = false := by decide
    rw [mem_pattern_syms]
    constructor
    · exact ⟨⟨"A", 0, 1, 2, 100, 0⟩, by norm_num [yangBase, exDbAB], rfl⟩
    · norm_num [pattern_holds, last6, last6_desc, yangBase, caseAgg, sqlGe,
        dateGe, List.filterMap_cons, List.max?, List.min?, min_def, exDbAB,
        hBA]
  exact ⟨huniq, hq, by simp, by simp,
    summary_projection exDbAB 9 "A" ["A"] huniq hq (by simp) (by simp)⟩
